import Mathlib

set_option maxHeartbeats 1000000

/-!
Shallow embedding of the AdaptiveAUTOSAR-Cpp17 repository core:
the fixed-size container ara::core::Array<T,N>
(src/components/open-aa-std-adaptive-autosar-libs/include/ara/core/array.h),
its violation path (src/.../src/ara/core/internal/violation_handler.cpp,
include/ara/core/internal/location_utils.h) and the Linux process-name
provider (src/components/open-aa-platform-os-abstraction-libs/src/ara/os/
linux/process/process.cpp).

Machine integers (std::size_t) are modelled as Nat: every index and size in
the source is compared and incremented far below any overflow boundary.
C++ references are modelled by values; the element storage T data_[N] is a
Lean list of length exactly N.
-/

/-- Storage of ara::core::Array<T,N>: the member T data_[N] holds exactly N
elements of T (array.h, ArrayStorage<T,N,true> and its N = 0
specialization, lines 148-209). -/
structure AraArray (T : Type) (N : Nat) where
  data : List T
  len_eq : data.length = N

/-- Model of the constrained variadic constructor (array.h lines 286-306
together with ArrayStorage lines 156-188): brace-initialization
T data_[N]{args...} puts the k supplied values at positions 0..k-1 and
value-initializes the remaining N-k positions; value-initialization of T is
modelled by Inhabited.default (0 for Int).  The source rejects k > N at
compile time; the model truncates, and every theorem about it assumes
k <= N. -/
def AraArray.ofVals {T : Type} [Inhabited T] {N : Nat} (vals : List T) : AraArray T N :=
  ⟨vals.take N ++ List.replicate (N - vals.length) default, by
    simp [List.length_take]
    omega⟩

/-- Model of operator[] (array.h lines 363-381): returns data_[idx] with no
bounds validation; an out-of-range read is undefined behavior in the source
and yields the junk value Inhabited.default in the model. -/
def AraArray.opIndex {T : Type} [Inhabited T] {N : Nat} (a : AraArray T N) (i : Nat) : T :=
  a.data.getD i default

/-- Model of size() (array.h lines 537-540): returns N. -/
def AraArray.size {T : Type} {N : Nat} (_ : AraArray T N) : Nat := N

/-- Model of empty() (array.h lines 561-564): returns (N == 0). -/
def AraArray.emptyB {T : Type} {N : Nat} (_ : AraArray T N) : Bool := N == 0

/-- Model of operator== (array.h lines 893-913): for i in 0..N-1, if
!(lhs[i] == rhs[i]) return false; return true. -/
def AraArray.eqOp {T : Type} [DecidableEq T] [Inhabited T] {N : Nat}
    (lhs rhs : AraArray T N) : Bool :=
  (List.range N).all (fun i => decide (lhs.opIndex i = rhs.opIndex i))

/-- Model of operator!= (array.h lines 926-941): returns !(lhs == rhs). -/
def AraArray.neOp {T : Type} [DecidableEq T] [Inhabited T] {N : Nat}
    (lhs rhs : AraArray T N) : Bool :=
  !(lhs.eqOp rhs)

/-- Model of std::lexicographical_compare(lhs.begin(), lhs.end(),
rhs.begin(), rhs.end()) as used by operator< (array.h lines 954-970): while
the first range is not exhausted, an exhausted or smaller second element
decides false, a smaller first element decides true, equal heads advance;
when the first range is exhausted the result is whether the second range
still has elements. -/
def lexicographicalCompare {T : Type} [LinearOrder T] : List T → List T → Bool
  | [], r => !r.isEmpty
  | _ :: _, [] => false
  | x :: xs, y :: ys =>
    if y < x then false
    else if x < y then true
    else lexicographicalCompare xs ys

/-- Model of operator< (array.h lines 954-970). -/
def AraArray.ltOp {T : Type} [LinearOrder T] {N : Nat} (lhs rhs : AraArray T N) : Bool :=
  lexicographicalCompare lhs.data rhs.data

/-- Model of operator<= (array.h lines 983-998): returns !(rhs < lhs). -/
def AraArray.leOp {T : Type} [LinearOrder T] {N : Nat} (lhs rhs : AraArray T N) : Bool :=
  !(rhs.ltOp lhs)

/-- Model of operator> (array.h lines 1011-1026): returns (rhs < lhs). -/
def AraArray.gtOp {T : Type} [LinearOrder T] {N : Nat} (lhs rhs : AraArray T N) : Bool :=
  rhs.ltOp lhs

/-- Model of operator>= (array.h lines 1039-1054): returns !(lhs < rhs). -/
def AraArray.geOp {T : Type} [LinearOrder T] {N : Nat} (lhs rhs : AraArray T N) : Bool :=
  !(lhs.ltOp rhs)

/-- Model of std::fill_n(data_, n, v) as called by fill(): assigns v to the
positions 0..n-1 of the storage, in index order (one loop iteration per
index, embedded as a fold over the index range). -/
def fillN {T : Type} (l : List T) (n : Nat) (v : T) : List T :=
  (List.range n).foldl (fun acc i => acc.set i v) l

/-- Model of fill() (array.h lines 732-749): if constexpr (N > 0)
std::fill_n(this->data_, N, val); the resulting element sequence. -/
def AraArray.fillArr {T : Type} {N : Nat} (a : AraArray T N) (v : T) : List T :=
  if N > 0 then fillN a.data N v else a.data

/-- One iteration of the member swap() loop (array.h line 777):
std::swap(this->data_[i], other.data_[i]) exchanges the two elements at
index i. -/
def swapStep {T : Type} [Inhabited T] (p : List T × List T) (i : Nat) : List T × List T :=
  (p.1.set i (p.2.getD i default), p.2.set i (p.1.getD i default))

/-- Model of the member swap() loop (array.h lines 762-780): for i in
0..n-1, std::swap(data_[i], other.data_[i]). -/
def swapLists {T : Type} [Inhabited T] (a b : List T) (n : Nat) : List T × List T :=
  (List.range n).foldl swapStep (a, b)

/-- Member swap (array.h lines 762-780) on the stored sequences of two
same-type same-size arrays. -/
def AraArray.swapMember {T : Type} [Inhabited T] {N : Nat}
    (a other : AraArray T N) : List T × List T :=
  swapLists a.data other.data N

/-- Non-member swap for matching T and N (array.h lines 1072-1088):
delegates to lhs.swap(rhs). -/
def swapNonMember {T : Type} [Inhabited T] {N : Nat}
    (lhs rhs : AraArray T N) : List T × List T :=
  lhs.swapMember rhs

/-- Model of data() (array.h lines 502-525): a handle to the first element,
modelled as the base offset into the storage; nullptr (none) when N = 0. -/
def AraArray.dataPtr {T : Type} {N : Nat} (_ : AraArray T N) : Option Nat :=
  if N > 0 then some 0 else none

/-- Model of begin() (array.h lines 576-591): returns data(). -/
def AraArray.beginPtr {T : Type} {N : Nat} (a : AraArray T N) : Option Nat :=
  a.dataPtr

/-- Model of end() (array.h lines 600-623): data() + N when N > 0, nullptr
otherwise. -/
def AraArray.endPtr {T : Type} {N : Nat} (a : AraArray T N) : Option Nat :=
  if N > 0 then a.dataPtr.map (fun p => p + N) else none

/-- Error codes of the process interaction interface
(process_interaction.h lines 52-58). -/
inductive ErrorCode
  | Success
  | BufferTooSmall
  | RetrievalFailed
  | NullBuffer
  | UnknownError
deriving DecidableEq

/-- The NUL byte used for C string termination and padding. -/
def nulChar : Char := Char.ofNat 0

/-- Model of std::strncpy(dest, src, n): writes min(n, length of src)
characters of src, pads with NUL up to n bytes when src is shorter, and
leaves the bytes of dest past n untouched. -/
def strncpyList (dest src : List Char) (n : Nat) : List Char :=
  (src.take n ++ List.replicate (n - src.length) nulChar) ++ dest.drop n

/-- Environment seen by the Linux provider: the process id (getpid) and the
content of /proc/pid/comm, none when the file cannot be opened
(process.cpp lines 70-89). -/
structure OsEnv where
  pid : Nat
  comm : Option String

/-- The std::getline step (process.cpp line 88): the first line of the comm
file, newline stripped. -/
def firstLine (s : String) : String :=
  String.mk (s.data.takeWhile (fun c => c != '\n'))

/-- The snprintf step (process.cpp line 73): the path "/proc/%d/comm". -/
def procCommPath (pid : Nat) : String :=
  "/proc/" ++ toString pid ++ "/comm"

/-- Model of ProcessInteractionImpl::GetProcessName (process.cpp lines
56-111): null-buffer and zero-size validation, the snprintf truncation
check against maxPathLength = 256, the comm read, the empty-name check, the
name-length-plus-terminator check, and on success the strncpy of the name
into the buffer with forced NUL at bufferSize - 1.  bufferNull models
buffer == nullptr; the result is the error code and the buffer contents
after the call. -/
def getProcessName (env : OsEnv) (bufferNull : Bool) (buffer : List Char)
    (bufferSize : Nat) : ErrorCode × List Char :=
  if bufferNull then (ErrorCode.NullBuffer, buffer)
  else if bufferSize = 0 then (ErrorCode.BufferTooSmall, buffer)
  else if 256 ≤ (procCommPath env.pid).length then (ErrorCode.RetrievalFailed, buffer)
  else
    match env.comm with
    | none => (ErrorCode.RetrievalFailed, buffer)
    | some content =>
      if firstLine content = "" then (ErrorCode.RetrievalFailed, buffer)
      else if bufferSize < (firstLine content).length + 1 then
        (ErrorCode.BufferTooSmall, buffer)
      else
        (ErrorCode.Success,
          (strncpyList buffer (firstLine content).data (bufferSize - 1)).set
            (bufferSize - 1) nulChar)

/-- Reading std::string(buf) out of a char buffer: the characters before
the first NUL. -/
def cStringOf (l : List Char) : String :=
  String.mk (l.takeWhile (fun c => c != nulChar))

/-- Model of ViolationHandler::GetProcessIdentifier (violation_handler.cpp
lines 124-140): a zeroed 256-byte buffer, GetProcessName through the
factory-created provider when one exists, the "UnknownProcess" fallback on
any non-success result, the "UnsupportedPlatform" fallback when no provider
exists, and the std::string read of the buffer. -/
def getProcessIdentifier (hasProvider : Bool) (env : OsEnv) : String :=
  if hasProvider then
    let r := getProcessName env false (List.replicate 256 nulChar) 256
    if r.1 = ErrorCode.Success then cStringOf r.2
    else cStringOf (strncpyList r.2 ("UnknownProcess".data) 255)
  else
    cStringOf (strncpyList (List.replicate 256 nulChar) ("UnsupportedPlatform".data) 255)

/-- Observable effect of the violation path on the process: the lines
written to std::cerr, in order, and whether the process was abnormally
terminated. -/
structure ProcOutput where
  cerrLines : List String
  terminated : Bool

/-- The fatal notice printed by ViolationHandler::Abort
(violation_handler.cpp line 106). -/
def abortMessage : String :=
  "FATAL: Process aborted due to a critical violation in ara::core::Array.\n"

/-- Model of ViolationHandler::Abort (violation_handler.cpp lines 104-108):
prints the fatal notice to std::cerr and calls std::terminate, never
returning. -/
def abortRun : ProcOutput := ⟨[abortMessage], true⟩

/-- The diagnostic line printed by TriggerArrayAccessOutOfRangeViolation
(violation_handler.cpp lines 83-86), with the [SWS_CORE_13017] format. -/
def violationMessage (procId location : String) (indexValue arraySize : Nat) : String :=
  "[App vlt][FATAL]: Violation detected in " ++ (procId ++ (" at " ++ (location ++
    (": Array access out of range: Tried to access " ++ (toString indexValue ++
      (" in array of size " ++ (toString arraySize ++ ".\n")))))))

/-- Model of ViolationHandler::TriggerArrayAccessOutOfRangeViolation
(violation_handler.cpp lines 79-90): formats the diagnostic with
GetProcessIdentifier() and emits it to std::cerr, then Abort(). -/
def triggerArrayAccessOutOfRangeViolation (hasProvider : Bool) (env : OsEnv)
    (location : String) (indexValue arraySize : Nat) : ProcOutput :=
  ⟨violationMessage (getProcessIdentifier hasProvider env) location indexValue arraySize
    :: abortRun.cerrLines, abortRun.terminated⟩

/-- A path separator as treated by CutLeadingPath: forward slash or
backslash (location_utils.h line 40). -/
def isPathSep (c : Char) : Bool := c == '/' || c == '\\'

/-- Position of the last path separator, the find_last_of step of
CutLeadingPath (location_utils.h line 40). -/
def findLastSep : List Char → Option Nat
  | [] => none
  | c :: cs =>
    match findLastSep cs with
    | some i => some (i + 1)
    | none => if isPathSep c then some 0 else none

/-- Model of CutLeadingPath (location_utils.h lines 38-46): the whole
string when it has no separator, otherwise the substring after the last
one. -/
def cutLeadingPath (s : String) : String :=
  match findLastSep s.data with
  | none => s
  | some p => String.mk (s.data.drop (p + 1))

/-- Model of the ARA_CORE_INTERNAL_FILELINE macro (location_utils.h lines
78-83): CutLeadingPath applied to __FILE__ ":" __LINE__ at the expansion
site. -/
def araCoreInternalFileline (file : String) (line : Nat) : String :=
  cutLeadingPath (file ++ ":" ++ toString line)

/-- A recorded invocation of TriggerOutOfRangeViolation (array.h lines
796-802): the location token and the reported index and array size. -/
structure ViolationEvent where
  location : String
  invalidIndex : Nat
  arraySize : Nat
deriving DecidableEq

/-- Model of at() (array.h lines 395-427), instrumented with the list of
violation invocations: if (idx >= N), TriggerOutOfRangeViolation(
ARA_CORE_INTERNAL_FILELINE, idx, N) is invoked once and at() does not
return (none); otherwise at() returns this->data_[idx], the very element
operator[] yields.  file and line stand for __FILE__ / __LINE__ at the
access site inside at(). -/
def AraArray.atChecked {T : Type} [Inhabited T] {N : Nat} (a : AraArray T N)
    (idx : Nat) (file : String) (line : Nat) : List ViolationEvent × Option T :=
  if N ≤ idx then
    ([⟨araCoreInternalFileline file line, idx, N⟩], none)
  else
    ([], some (a.data.getD idx default))

/-- Model of at() together with the full violation side effects (array.h
lines 395-427 chained to violation_handler.cpp lines 79-108): on idx >= N
the process output of the violation path and no returned element;
otherwise the element, no output and no termination. -/
def AraArray.atFull {T : Type} [Inhabited T] {N : Nat} (a : AraArray T N) (idx : Nat)
    (hasProvider : Bool) (env : OsEnv) (file : String) (line : Nat) :
    Option T × ProcOutput :=
  if N ≤ idx then
    (none, triggerArrayAccessOutOfRangeViolation hasProvider env
      (araCoreInternalFileline file line) idx N)
  else
    (some (a.data.getD idx default), ⟨[], false⟩)

/-- The token t occurs as a contiguous substring of the line s. -/
def containsTok (s t : String) : Prop :=
  ∃ pre post : List Char, s.data = pre ++ t.data ++ post

/-- Helper: getD of a replicate of d with fallback d is always d. -/
theorem getD_replicate_self {α : Type} (d : α) (k m : Nat) :
    (List.replicate k d).getD m d = d := by
  induction k generalizing m with
  | zero => simp [List.getD]
  | succ k ih =>
    cases m with
    | zero => simp [List.replicate_succ]
    | succ m => simp only [List.replicate_succ, List.getD_cons_succ]; exact ih m

/-- C3: constructing Array<T,N> from k <= N initializer values yields
size() == N, elements 0..k-1 equal to the supplied values in order,
elements k..N-1 equal to T's value-initialized default; in particular
Array<int,5>{1,2} holds the sequence 1,2,0,0,0. -/
theorem araArray_construction_spec {T : Type} [Inhabited T] {N : Nat}
    (vals : List T) (h : vals.length ≤ N) :
    (AraArray.ofVals (N := N) vals).size = N
    ∧ (∀ i, i < vals.length → (AraArray.ofVals (N := N) vals).opIndex i = vals.getD i default)
    ∧ (∀ i, vals.length ≤ i → i < N → (AraArray.ofVals (N := N) vals).opIndex i = default)
    ∧ (AraArray.ofVals (T := Int) (N := 5) [1, 2]).data = [1, 2, 0, 0, 0] := by
  refine ⟨rfl, ?_, ?_, by decide⟩
  · intro i hi
    have hv : vals.take N = vals := List.take_of_length_le h
    simp only [AraArray.ofVals, AraArray.opIndex, hv]
    exact List.getD_append _ _ _ _ hi
  · intro i hki hiN
    have hv : vals.take N = vals := List.take_of_length_le h
    simp only [AraArray.ofVals, AraArray.opIndex, hv]
    rw [List.getD_append_right _ _ _ _ hki]
    exact getD_replicate_self _ _ _

/-- Witness for C3 at concrete input: T = Int, N = 5, vals = [1,2]. -/
theorem araArray_construction_spec_witness :
    (AraArray.ofVals (T := Int) (N := 5) [1, 2]).size = 5
    ∧ (AraArray.ofVals (T := Int) (N := 5) [1, 2]).opIndex 1 = ([1, 2] : List Int).getD 1 default
    ∧ (AraArray.ofVals (T := Int) (N := 5) [1, 2]).opIndex 4 = default
    ∧ (AraArray.ofVals (T := Int) (N := 5) [1, 2]).data = [1, 2, 0, 0, 0] := by
  have h := araArray_construction_spec (T := Int) (N := 5) [1, 2] (by decide)
  exact ⟨h.1, h.2.1 1 (by decide), h.2.2.1 4 (by decide) (by decide), h.2.2.2⟩

/-- C4: two arrays of identical T and N are equal iff every corresponding
pair of elements compares equal, and inequality is the negation. -/
theorem araArray_eq_elementwise {T : Type} [DecidableEq T] [Inhabited T] {N : Nat}
    (a b : AraArray T N) :
    (a.eqOp b = true ↔ ∀ i, i < N → a.opIndex i = b.opIndex i)
    ∧ (a.neOp b = true ↔ ¬(a.eqOp b = true)) := by
  constructor
  · simp [AraArray.eqOp, List.all_eq_true, List.mem_range]
  · simp [AraArray.neOp]

/-- Helper: the source's lexicographical_compare loop decides exactly the
standard lexicographic strict order on the element sequences. -/
theorem lexicographicalCompare_iff_lex {T : Type} [LinearOrder T] (l1 l2 : List T) :
    lexicographicalCompare l1 l2 = true ↔ List.Lex (· < ·) l1 l2 := by
  induction l1 generalizing l2 with
  | nil =>
    cases l2 with
    | nil => simp [lexicographicalCompare]
    | cons y ys =>
      simp only [lexicographicalCompare, List.isEmpty_cons, Bool.not_false]
      exact ⟨fun _ => List.Lex.nil, fun _ => by simp⟩
  | cons x xs ih =>
    cases l2 with
    | nil => simp [lexicographicalCompare]
    | cons y ys =>
      by_cases hyx : y < x
      · simp only [lexicographicalCompare, if_pos hyx, Bool.false_eq_true, false_iff]
        intro hlex
        cases hlex with
        | cons h => exact absurd hyx (lt_irrefl _)
        | rel h => exact absurd (lt_trans h hyx) (lt_irrefl _)
      · by_cases hxy : x < y
        · simp only [lexicographicalCompare, if_neg hyx, if_pos hxy, true_iff]
          exact List.Lex.rel hxy
        · have hx : x = y := le_antisymm (le_of_not_lt hyx) (le_of_not_lt hxy)
          subst hx
          simp only [lexicographicalCompare, if_neg hyx, if_neg hxy]
          rw [List.Lex.cons_iff]
          exact ih ys

/-- C5: operator< is the standard lexicographic comparison over the element
sequences, and the remaining orderings are consistent with it: a <= b iff
not (b < a), a > b iff b < a, a >= b iff not (a < b); concretely
[1,2,3] < [1,2,4], [1,2,3] <= [1,2,3] and [1,2,4] > [1,2,3]. -/
theorem araArray_lex_order {T : Type} [LinearOrder T] {N : Nat} (a b : AraArray T N) :
    (a.ltOp b = true ↔ List.Lex (· < ·) a.data b.data)
    ∧ (a.leOp b = !(b.ltOp a)) ∧ (a.gtOp b = b.ltOp a) ∧ (a.geOp b = !(a.ltOp b))
    ∧ ((⟨[1, 2, 3], rfl⟩ : AraArray Int 3).ltOp ⟨[1, 2, 4], rfl⟩ = true)
    ∧ ((⟨[1, 2, 3], rfl⟩ : AraArray Int 3).leOp ⟨[1, 2, 3], rfl⟩ = true)
    ∧ ((⟨[1, 2, 4], rfl⟩ : AraArray Int 3).gtOp ⟨[1, 2, 3], rfl⟩ = true) :=
  ⟨lexicographicalCompare_iff_lex _ _, rfl, rfl, rfl, by decide, by decide, by decide⟩

/-- Helper: getD inside a replicate, at an in-range index, is the
replicated element whatever the fallback. -/
theorem getD_replicate_of_lt {α : Type} (x d : α) {k m : Nat} (h : m < k) :
    (List.replicate k x).getD m d = x := by
  induction k generalizing m with
  | zero => omega
  | succ k ih =>
    cases m with
    | zero => simp [List.replicate_succ]
    | succ m => simp only [List.replicate_succ, List.getD_cons_succ]; exact ih (by omega)

/-- Helper: the fill_n loop overwrites the first n positions with v and
leaves the rest of the storage untouched. -/
theorem fillN_eq_replicate_append {T : Type} (v : T) :
    ∀ (n : Nat) (l : List T), n ≤ l.length →
      fillN l n v = List.replicate n v ++ l.drop n
  | 0, l, _ => by simp [fillN]
  | n + 1, l, h => by
    have hn : n < l.length := by omega
    have hih := fillN_eq_replicate_append v n l (Nat.le_of_lt hn)
    have hrep : (List.replicate n v).length = n := List.length_replicate _ _
    calc fillN l (n + 1) v
        = (fillN l n v).set n v := by
          simp only [fillN, List.range_succ, List.foldl_append, List.foldl_cons,
            List.foldl_nil]
      _ = List.replicate (n + 1) v ++ l.drop (n + 1) := by
          rw [hih, List.set_append_right _ _ (le_of_eq hrep), hrep, Nat.sub_self,
            List.drop_eq_getElem_cons hn, List.set_cons_zero, List.replicate_succ',
            List.append_assoc, List.singleton_append]

/-- Helper: the member swap() loop, run over the first n indices of two
equal-length storages, exchanges exactly the first n elements. -/
theorem swapLists_spec {T : Type} [Inhabited T] :
    ∀ (n : Nat) (a b : List T), a.length = b.length → n ≤ a.length →
      swapLists a b n = (b.take n ++ a.drop n, a.take n ++ b.drop n)
  | 0, a, b, _, _ => by simp [swapLists]
  | n + 1, a, b, hlen, h => by
    have hna : n < a.length := by omega
    have hnb : n < b.length := by omega
    have hih := swapLists_spec n a b hlen (Nat.le_of_lt hna)
    have hta : (a.take n).length = n := by rw [List.length_take]; omega
    have htb : (b.take n).length = n := by rw [List.length_take]; omega
    have hget1 : (b.take n ++ a.drop n).getD n default = a.get ⟨n, hna⟩ := by
      rw [List.getD_append_right _ _ _ _ (le_of_eq htb), htb, Nat.sub_self,
        List.drop_eq_getElem_cons hna, List.getD_cons_zero, List.get_eq_getElem]
    have hget2 : (a.take n ++ b.drop n).getD n default = b.get ⟨n, hnb⟩ := by
      rw [List.getD_append_right _ _ _ _ (le_of_eq hta), hta, Nat.sub_self,
        List.drop_eq_getElem_cons hnb, List.getD_cons_zero, List.get_eq_getElem]
    have hset1 : (b.take n ++ a.drop n).set n (b.get ⟨n, hnb⟩)
        = b.take (n + 1) ++ a.drop (n + 1) := by
      rw [List.set_append_right _ _ (le_of_eq htb), htb, Nat.sub_self,
        List.drop_eq_getElem_cons hna, List.set_cons_zero,
        ← List.take_concat_get' b n hnb, List.append_assoc, List.singleton_append,
        List.get_eq_getElem]
    have hset2 : (a.take n ++ b.drop n).set n (a.get ⟨n, hna⟩)
        = a.take (n + 1) ++ b.drop (n + 1) := by
      rw [List.set_append_right _ _ (le_of_eq hta), hta, Nat.sub_self,
        List.drop_eq_getElem_cons hnb, List.set_cons_zero,
        ← List.take_concat_get' a n hna, List.append_assoc, List.singleton_append,
        List.get_eq_getElem]
    calc swapLists a b (n + 1)
        = swapStep (swapLists a b n) n := by
          simp only [swapLists, List.range_succ, List.foldl_append, List.foldl_cons,
            List.foldl_nil]
      _ = (b.take (n + 1) ++ a.drop (n + 1), a.take (n + 1) ++ b.drop (n + 1)) := by
          rw [hih]
          simp only [swapStep]
          rw [hget1, hget2, hset1, hset2]

/-- C6: after swap(a, b) the new a equals the old b element-wise and the new
b equals the old a, both for the member swap and the delegating non-member
swap. -/
theorem araArray_swap_exchanges {T : Type} [Inhabited T] {N : Nat} (a b : AraArray T N) :
    a.swapMember b = (b.data, a.data) ∧ swapNonMember a b = (b.data, a.data) := by
  have h := swapLists_spec N a.data b.data (by rw [a.len_eq, b.len_eq]) (le_of_eq a.len_eq.symm)
  rw [List.take_of_length_le (le_of_eq a.len_eq), List.take_of_length_le (le_of_eq b.len_eq),
    List.drop_of_length_le (le_of_eq a.len_eq), List.drop_of_length_le (le_of_eq b.len_eq),
    List.append_nil, List.append_nil] at h
  exact ⟨h, h⟩

/-- C7: after fill(v) every element at index 0..N-1 equals v (assigned in
index order by the fill_n loop), and fill is a no-op when N = 0. -/
theorem araArray_fill_assigns {T : Type} [Inhabited T] {N : Nat} (a : AraArray T N) (v : T) :
    (∀ i, i < N → (a.fillArr v).getD i default = v) ∧ (N = 0 → a.fillArr v = a.data) := by
  constructor
  · intro i hi
    have hN : N > 0 := by omega
    have hfill : a.fillArr v = List.replicate N v ++ a.data.drop N := by
      rw [AraArray.fillArr, if_pos hN]
      exact fillN_eq_replicate_append v N a.data (le_of_eq a.len_eq.symm)
    rw [hfill, List.getD_append _ _ _ _ (by rw [List.length_replicate]; omega)]
    exact getD_replicate_of_lt _ _ hi
  · intro h0
    rw [AraArray.fillArr, if_neg (by omega)]

/-- Witness for C7 at concrete input: filling an Array<int,4> with 100, and
the N = 0 no-op. -/
theorem araArray_fill_assigns_witness :
    ((⟨[1, 2, 3, 4], rfl⟩ : AraArray Int 4).fillArr 100).getD 2 default = 100
    ∧ (⟨[], rfl⟩ : AraArray Int 0).fillArr 7 = [] :=
  ⟨(araArray_fill_assigns (⟨[1, 2, 3, 4], rfl⟩ : AraArray Int 4) 100).1 2 (by decide),
    (araArray_fill_assigns (⟨[], rfl⟩ : AraArray Int 0) 7).2 rfl⟩

/-- C8: a zero-capacity array reports size 0 and empty, its begin equals its
end, its data handle is the null-equivalent none, and fill as well as swap
against another zero-capacity array leave the containers unchanged. -/
theorem araArray_zero_capacity {T : Type} [Inhabited T] (a b : AraArray T 0) (v : T) :
    a.size = 0 ∧ a.emptyB = true ∧ a.beginPtr = a.endPtr ∧ a.dataPtr = none
    ∧ a.fillArr v = a.data ∧ a.swapMember b = (a.data, b.data) :=
  ⟨rfl, rfl, rfl, rfl, rfl, rfl⟩

/-- C1: for 0 <= i < N, at(i) returns the very element operator[](i)
returns; for i >= N, at(i) invokes the Violation protocol exactly once,
with the location token and the offending index and size N, and never
returns normally. -/
theorem araArray_at_checked_access {T : Type} [Inhabited T] {N : Nat}
    (a : AraArray T N) (i : Nat) (file : String) (line : Nat) :
    (i < N → a.atChecked i file line = ([], some (a.opIndex i)))
    ∧ (N ≤ i → a.atChecked i file line
        = ([⟨araCoreInternalFileline file line, i, N⟩], none)) := by
  constructor
  · intro h
    rw [AraArray.atChecked, if_neg (by omega)]
    rfl
  · intro h
    rw [AraArray.atChecked, if_pos h]

/-- Witness for C1 at concrete input: Array<int,3> with elements 10,20,30,
accessed at 1 (in range) and at 7 (out of range). -/
theorem araArray_at_checked_access_witness :
    ((⟨[10, 20, 30], rfl⟩ : AraArray Int 3).atChecked 1 ("/repo/ara/core/array.h") 399
      = ([], some ((⟨[10, 20, 30], rfl⟩ : AraArray Int 3).opIndex 1)))
    ∧ ((⟨[10, 20, 30], rfl⟩ : AraArray Int 3).atChecked 7 ("/repo/ara/core/array.h") 399
      = ([⟨araCoreInternalFileline ("/repo/ara/core/array.h") 399, 7, 3⟩], none)) :=
  ⟨(araArray_at_checked_access (⟨[10, 20, 30], rfl⟩ : AraArray Int 3) 1
      "/repo/ara/core/array.h" 399).1 (by decide),
    (araArray_at_checked_access (⟨[10, 20, 30], rfl⟩ : AraArray Int 3) 7
      "/repo/ara/core/array.h" 399).2 (by decide)⟩

/-- C2: for every checked access at(i) with i >= N, the violation path
formats one diagnostic containing the process identity, the source-location
token of the failing access site, the offending index and the size N, emits
it to the standard diagnostic stream (followed only by the abort notice),
and unconditionally abnormally terminates without returning a value. -/
theorem araArray_at_violation_diagnostic {T : Type} [Inhabited T] {N : Nat}
    (a : AraArray T N) (i : Nat) (hasProvider : Bool) (env : OsEnv)
    (file : String) (line : Nat) (h : N ≤ i) :
    (a.atFull i hasProvider env file line).1 = none
    ∧ ∃ m, (a.atFull i hasProvider env file line).2.cerrLines = [m, abortMessage]
      ∧ containsTok m (getProcessIdentifier hasProvider env)
      ∧ containsTok m (araCoreInternalFileline file line)
      ∧ containsTok m (toString i)
      ∧ containsTok m (toString N)
      ∧ (a.atFull i hasProvider env file line).2.terminated = true := by
  have hfull : a.atFull i hasProvider env file line
      = (none, ⟨[violationMessage (getProcessIdentifier hasProvider env)
          (araCoreInternalFileline file line) i N, abortMessage], true⟩) := by
    rw [AraArray.atFull, if_pos h]
    rfl
  rw [hfull]
  refine ⟨rfl, violationMessage (getProcessIdentifier hasProvider env)
      (araCoreInternalFileline file line) i N, rfl, ?_, ?_, ?_, ?_, rfl⟩
  · exact ⟨("[App vlt][FATAL]: Violation detected in ").data,
      ((" at " ++ (araCoreInternalFileline file line
        ++ (": Array access out of range: Tried to access " ++ (toString i
          ++ (" in array of size " ++ (toString N ++ ".\n"))))))).data,
      by simp [violationMessage]⟩
  · exact ⟨("[App vlt][FATAL]: Violation detected in "
        ++ (getProcessIdentifier hasProvider env ++ " at ")).data,
      ((": Array access out of range: Tried to access " ++ (toString i
        ++ (" in array of size " ++ (toString N ++ ".\n"))))).data,
      by simp [violationMessage]⟩
  · exact ⟨("[App vlt][FATAL]: Violation detected in "
        ++ (getProcessIdentifier hasProvider env ++ (" at "
          ++ (araCoreInternalFileline file line
            ++ ": Array access out of range: Tried to access ")))).data,
      ((" in array of size " ++ (toString N ++ ".\n"))).data,
      by simp [violationMessage]⟩
  · exact ⟨("[App vlt][FATAL]: Violation detected in "
        ++ (getProcessIdentifier hasProvider env ++ (" at "
          ++ (araCoreInternalFileline file line
            ++ (": Array access out of range: Tried to access "
              ++ (toString i ++ " in array of size ")))))).data,
      (".\n" : String).data,
      by simp [violationMessage]⟩

/-- Witness for C2 at concrete input: Array<int,3> accessed at 7, Linux
provider present with comm content "demo_app". -/
theorem araArray_at_violation_diagnostic_witness :
    ((⟨[10, 20, 30], rfl⟩ : AraArray Int 3).atFull 7 true ⟨1234, some ("demo_app\n")⟩
        "/repo/include/ara/core/array.h" 399).1 = none
    ∧ ∃ m, ((⟨[10, 20, 30], rfl⟩ : AraArray Int 3).atFull 7 true ⟨1234, some ("demo_app\n")⟩
        "/repo/include/ara/core/array.h" 399).2.cerrLines = [m, abortMessage]
      ∧ containsTok m (getProcessIdentifier true ⟨1234, some ("demo_app\n")⟩)
      ∧ containsTok m (araCoreInternalFileline ("/repo/include/ara/core/array.h") 399)
      ∧ containsTok m (toString 7)
      ∧ containsTok m (toString 3)
      ∧ ((⟨[10, 20, 30], rfl⟩ : AraArray Int 3).atFull 7 true ⟨1234, some ("demo_app\n")⟩
          "/repo/include/ara/core/array.h" 399).2.terminated = true :=
  araArray_at_violation_diagnostic (⟨[10, 20, 30], rfl⟩ : AraArray Int 3) 7 true
    ⟨1234, some ("demo_app\n")⟩ ("/repo/include/ara/core/array.h") 399 (by decide)

/-- Helper: every non-success return of GetProcessName leaves the caller's
buffer exactly as it was. -/
theorem getProcessName_error_keeps_buffer (env : OsEnv) (bufferNull : Bool)
    (buffer : List Char) (bufferSize : Nat)
    (h : (getProcessName env bufferNull buffer bufferSize).1 ≠ ErrorCode.Success) :
    (getProcessName env bufferNull buffer bufferSize).2 = buffer := by
  by_cases h1 : bufferNull
  · simp [getProcessName, h1]
  · by_cases h2 : bufferSize = 0
    · simp [getProcessName, h1, h2]
    · by_cases h3 : 256 ≤ (procCommPath env.pid).length
      · simp [getProcessName, h1, h2, h3]
      · cases henv : env.comm with
        | none => simp [getProcessName, h1, h2, h3, henv]
        | some content =>
          by_cases h4 : firstLine content = ""
          · simp [getProcessName, h1, h2, h3, henv, h4]
          · by_cases h5 : bufferSize < (firstLine content).length + 1
            · simp [getProcessName, h1, h2, h3, henv, h4, h5]
            · exfalso
              apply h
              simp [getProcessName, h1, h2, h3, henv, h4, h5]

/-- Helper: strncpy of a short-enough name into a buffer of exactly
bufferSize bytes, followed by forcing NUL at the last byte, produces the
name followed by NUL padding. -/
theorem strncpy_nul_shape (dest src : List Char) (size : Nat)
    (hd : dest.length = size) (hs : src.length + 1 ≤ size) :
    (strncpyList dest src (size - 1)).set (size - 1) nulChar
      = src ++ List.replicate (size - src.length) nulChar := by
  have hL : src.length ≤ size - 1 := by omega
  have htake : src.take (size - 1) = src := List.take_of_length_le hL
  have hrep : (src ++ List.replicate (size - 1 - src.length) nulChar).length = size - 1 := by
    rw [List.length_append, List.length_replicate]
    omega
  have hdroplen : (dest.drop (size - 1)).length = 1 := by
    rw [List.length_drop, hd]
    omega
  obtain ⟨c, hc⟩ := List.length_eq_one.mp hdroplen
  rw [strncpyList, htake, hc, List.set_append_right _ _ (le_of_eq hrep), hrep,
    Nat.sub_self, List.set_cons_zero, List.append_assoc]
  congr 1
  rw [← List.replicate_succ']
  congr 1
  omega

/-- Helper: a Success return of GetProcessName happens exactly when the
comm file yielded a nonempty first line that fits the buffer, and then the
buffer holds that name followed by NUL padding. -/
theorem getProcessName_success_shape (env : OsEnv) (buffer : List Char) (bufferSize : Nat)
    (hbuf : buffer.length = bufferSize)
    (hsucc : (getProcessName env false buffer bufferSize).1 = ErrorCode.Success) :
    ∃ content, env.comm = some content ∧ firstLine content ≠ ""
      ∧ (firstLine content).length + 1 ≤ bufferSize
      ∧ (getProcessName env false buffer bufferSize).2
        = (firstLine content).data
          ++ List.replicate (bufferSize - (firstLine content).length) nulChar := by
  by_cases h2 : bufferSize = 0
  · rw [getProcessName] at hsucc
    simp [h2] at hsucc
  by_cases h3 : 256 ≤ (procCommPath env.pid).length
  · rw [getProcessName] at hsucc
    simp [h2, h3] at hsucc
  cases henv : env.comm with
  | none =>
    rw [getProcessName] at hsucc
    simp [h2, h3, henv] at hsucc
  | some content =>
    by_cases h4 : firstLine content = ""
    · rw [getProcessName] at hsucc
      simp [h2, h3, henv, h4] at hsucc
    by_cases h5 : bufferSize < (firstLine content).length + 1
    · rw [getProcessName] at hsucc
      simp [h2, h3, henv, h4, h5] at hsucc
    refine ⟨content, rfl, h4, by omega, ?_⟩
    have hdata : (firstLine content).data.length = (firstLine content).length := rfl
    have hshape := strncpy_nul_shape buffer (firstLine content).data bufferSize hbuf
      (by rw [hdata]; omega)
    rw [getProcessName]
    simp only [Bool.false_eq_true, if_false, h2, if_neg h3, henv, if_neg h4,
      if_neg h5, ite_false, ite_true]
    rw [hshape, hdata]

/-- C10: the Linux GetProcessName writes into the caller-supplied buffer
only on the path that returns Success, after all validation checks pass: on
every error return the buffer contents are unchanged, and on Success the
buffer holds a null-terminated copy of the process name (its characters
followed by at least one NUL, since the name length plus one fits the
buffer). -/
theorem getProcessName_writes_only_on_success (env : OsEnv) (bufferNull : Bool)
    (buffer : List Char) (bufferSize : Nat) (hbuf : buffer.length = bufferSize) :
    ((getProcessName env bufferNull buffer bufferSize).1 ≠ ErrorCode.Success →
      (getProcessName env bufferNull buffer bufferSize).2 = buffer)
    ∧ ((getProcessName env bufferNull buffer bufferSize).1 = ErrorCode.Success →
      ∃ content, env.comm = some content ∧ firstLine content ≠ ""
        ∧ (firstLine content).length + 1 ≤ bufferSize
        ∧ (getProcessName env bufferNull buffer bufferSize).2
          = (firstLine content).data
            ++ List.replicate (bufferSize - (firstLine content).length) nulChar) := by
  constructor
  · exact getProcessName_error_keeps_buffer env bufferNull buffer bufferSize
  · intro hsucc
    cases bufferNull with
    | false => exact getProcessName_success_shape env buffer bufferSize hbuf hsucc
    | true =>
      rw [getProcessName] at hsucc
      simp at hsucc

/-- Witness for C10 at concrete input: pid 1234, comm content "demo_app",
a 16-byte zeroed buffer. -/
theorem getProcessName_writes_only_on_success_witness :
    (((getProcessName ⟨1234, some ("demo_app\n")⟩ false (List.replicate 16 nulChar) 16).1
        ≠ ErrorCode.Success →
      (getProcessName ⟨1234, some ("demo_app\n")⟩ false (List.replicate 16 nulChar) 16).2
        = List.replicate 16 nulChar)
    ∧ ((getProcessName ⟨1234, some ("demo_app\n")⟩ false (List.replicate 16 nulChar) 16).1
        = ErrorCode.Success →
      ∃ content, (some ("demo_app\n") : Option String) = some content
        ∧ firstLine content ≠ ""
        ∧ (firstLine content).length + 1 ≤ 16
        ∧ (getProcessName ⟨1234, some ("demo_app\n")⟩ false (List.replicate 16 nulChar) 16).2
          = (firstLine content).data
            ++ List.replicate (16 - (firstLine content).length) nulChar)) :=
  getProcessName_writes_only_on_success ⟨1234, some ("demo_app\n")⟩ false
    (List.replicate 16 nulChar) 16 (by decide)

/-- C9: GetProcessName returns the discriminated error code: NullBuffer
when the buffer is null; BufferTooSmall when the size is 0, or, once the
name was read, when the size is smaller than the name length plus one;
RetrievalFailed when the name cannot be read (unopenable comm file or empty
name); and Success otherwise.  The violation path's process-identifier
lookup yields "UnknownProcess" on every non-success provider result and
"UnsupportedPlatform" when no provider exists. -/
theorem getProcessName_error_discrimination (env : OsEnv) (buffer : List Char) (n : Nat) :
    (getProcessName env true buffer n = (ErrorCode.NullBuffer, buffer))
    ∧ (n = 0 → getProcessName env false buffer n = (ErrorCode.BufferTooSmall, buffer))
    ∧ (n ≠ 0 → (procCommPath env.pid).length < 256 → env.comm = none →
        getProcessName env false buffer n = (ErrorCode.RetrievalFailed, buffer))
    ∧ (∀ content, n ≠ 0 → (procCommPath env.pid).length < 256 →
        env.comm = some content → firstLine content = "" →
        getProcessName env false buffer n = (ErrorCode.RetrievalFailed, buffer))
    ∧ (∀ content, n ≠ 0 → (procCommPath env.pid).length < 256 →
        env.comm = some content → firstLine content ≠ "" →
        n < (firstLine content).length + 1 →
        getProcessName env false buffer n = (ErrorCode.BufferTooSmall, buffer))
    ∧ (∀ content, n ≠ 0 → (procCommPath env.pid).length < 256 →
        env.comm = some content → firstLine content ≠ "" →
        (firstLine content).length + 1 ≤ n →
        (getProcessName env false buffer n).1 = ErrorCode.Success)
    ∧ ((getProcessName env false (List.replicate 256 nulChar) 256).1 ≠ ErrorCode.Success →
        getProcessIdentifier true env = "UnknownProcess")
    ∧ (getProcessIdentifier false env = "UnsupportedPlatform") := by
  refine ⟨?_, ?_, ?_, ?_, ?_, ?_, ?_, ?_⟩
  · rw [getProcessName]
    simp
  · intro h0
    rw [getProcessName]
    simp [h0]
  · intro h0 hp hc
    have hp' : ¬256 ≤ (procCommPath env.pid).length := by omega
    rw [getProcessName]
    simp [h0, hp', hc]
  · intro content h0 hp hc hfl
    have hp' : ¬256 ≤ (procCommPath env.pid).length := by omega
    rw [getProcessName]
    simp [h0, hp', hc, hfl]
  · intro content h0 hp hc hfl hlen
    have hp' : ¬256 ≤ (procCommPath env.pid).length := by omega
    rw [getProcessName]
    simp [h0, hp', hc, hfl, hlen]
  · intro content h0 hp hc hfl hlen
    have hp' : ¬256 ≤ (procCommPath env.pid).length := by omega
    have hlen' : ¬n < (firstLine content).length + 1 := by omega
    rw [getProcessName]
    simp [h0, hp', hc, hfl, hlen']
  · intro hne
    have hkeep := getProcessName_error_keeps_buffer env false (List.replicate 256 nulChar) 256 hne
    rw [getProcessIdentifier, if_pos rfl]
    show (if (getProcessName env false (List.replicate 256 nulChar) 256).1 = ErrorCode.Success
        then cStringOf (getProcessName env false (List.replicate 256 nulChar) 256).2
        else cStringOf (strncpyList
          (getProcessName env false (List.replicate 256 nulChar) 256).2
          ("UnknownProcess".data) 255)) = "UnknownProcess"
    rw [if_neg hne, hkeep]
    decide
  · rw [getProcessIdentifier, if_neg Bool.false_ne_true]
    decide

/-- Witness for C9 at concrete inputs: pid 1234 with comm contents
"demo_app", missing comm, empty comm and an over-long name, buffer sizes
16, 4 and 0. -/
theorem getProcessName_error_discrimination_witness :
    (getProcessName ⟨1234, some ("demo_app\n")⟩ true (List.replicate 4 nulChar) 4
      = (ErrorCode.NullBuffer, List.replicate 4 nulChar))
    ∧ (getProcessName ⟨1234, some ("demo_app\n")⟩ false (List.replicate 4 nulChar) 0
      = (ErrorCode.BufferTooSmall, List.replicate 4 nulChar))
    ∧ (getProcessName ⟨1234, none⟩ false (List.replicate 4 nulChar) 4
      = (ErrorCode.RetrievalFailed, List.replicate 4 nulChar))
    ∧ (getProcessName ⟨1234, some ("")⟩ false (List.replicate 4 nulChar) 4
      = (ErrorCode.RetrievalFailed, List.replicate 4 nulChar))
    ∧ (getProcessName ⟨1234, some ("longprocessname\n")⟩ false (List.replicate 4 nulChar) 4
      = (ErrorCode.BufferTooSmall, List.replicate 4 nulChar))
    ∧ ((getProcessName ⟨1234, some ("demo_app\n")⟩ false (List.replicate 16 nulChar) 16).1
      = ErrorCode.Success)
    ∧ (getProcessIdentifier true ⟨1234, none⟩ = "UnknownProcess")
    ∧ (getProcessIdentifier false ⟨1234, some ("demo_app\n")⟩ = "UnsupportedPlatform") :=
  ⟨(getProcessName_error_discrimination ⟨1234, some ("demo_app\n")⟩
      (List.replicate 4 nulChar) 4).1,
    (getProcessName_error_discrimination ⟨1234, some ("demo_app\n")⟩
      (List.replicate 4 nulChar) 0).2.1 rfl,
    (getProcessName_error_discrimination ⟨1234, none⟩
      (List.replicate 4 nulChar) 4).2.2.1 (by decide) (by decide) rfl,
    (getProcessName_error_discrimination ⟨1234, some ("")⟩
      (List.replicate 4 nulChar) 4).2.2.2.1 ("") (by decide) (by decide) rfl (by decide),
    (getProcessName_error_discrimination ⟨1234, some ("longprocessname\n")⟩
      (List.replicate 4 nulChar) 4).2.2.2.2.1 ("longprocessname\n") (by decide) (by decide)
      rfl (by decide) (by decide),
    (getProcessName_error_discrimination ⟨1234, some ("demo_app\n")⟩
      (List.replicate 16 nulChar) 16).2.2.2.2.2.1 ("demo_app\n") (by decide) (by decide)
      rfl (by decide) (by decide),
    (getProcessName_error_discrimination ⟨1234, none⟩
      (List.replicate 4 nulChar) 4).2.2.2.2.2.2.1 (by decide),
    (getProcessName_error_discrimination ⟨1234, some ("demo_app\n")⟩
      (List.replicate 4 nulChar) 4).2.2.2.2.2.2.2⟩
